import Mathlib

/-!
Shallow embedding of the argon-chat/cbor.go CBOR codec.

Conventions of the embedding:
* a Go byte is a `Nat` below 256; a byte slice is a `List Nat`;
* a Go `uint64` is a `Nat` (theorems bound it by `2 ^ 64` where it matters);
  Go conversions that truncate are made explicit (`uint64OfInt`, `int64OfUint64`);
* a Go `int`/`int64` is an `Int`;
* bit masks and shifts on bounded operands are rendered with division,
  remainder, multiplication and addition (for disjoint bit ranges `x | y`
  is `x + y`, `x & (2^k - 1)` is `x % 2^k`, `x >> k` is `x / 2^k`,
  `x << k` is `x * 2^k`);
* the Go nesting stacks append frames at the end of a slice; here the head
  of the list is the innermost (most recently pushed) frame;
* a method on a pointer receiver that returns `(value, error)` becomes a
  function returning the value or the error together with the receiver's
  state at the Go return point; a Go runtime panic (out-of-range slice
  index or `make` length) is the distinguished outcome `panicked`.
-/

/-- Reader states, mirroring the `CborReaderState` enumeration of cbor.go
(the constructor order matches the Go iota order). -/
inductive ReaderState where
  | undefined
  | unsignedInteger
  | negativeInteger
  | byteString
  | textString
  | startArray
  | endArray
  | startMap
  | endMap
  | tag
  | simpleValue
  | halfPrecisionFloat
  | singlePrecisionFloat
  | doublePrecisionFloat
  | null
  | boolean
  | undefinedValue
  | startIndefiniteLengthByteString
  | endIndefiniteLengthByteString
  | startIndefiniteLengthTextString
  | endIndefiniteLengthTextString
  | finished
  deriving DecidableEq

/-- Error kinds of errors.go.  `typeMismatch` carries the expected and actual
reader states of Go's `TypeMismatchError`. -/
inductive CborError where
  | unexpectedEndOfData
  | invalidCbor
  | invalidMajorType
  | invalidSimpleValue
  | invalidUtf8
  | overflow
  | unexpectedBreak
  | nonCanonical
  | notAtEnd
  | invalidState
  | duplicateKey
  | unsortedKeys
  | indefiniteLengthNotAllowed
  | bufferTooSmall
  | nestingDepthExceeded
  | missingBreak
  | incompleteContainer
  | extraItems
  | typeMismatch (expected actual : ReaderState)
  deriving DecidableEq

/-- Go's conversion `CborReaderState(n)` for an integer `n`: the state with
that ordinal.  The code only applies it to major types (0..7). -/
def readerStateOfNat : Nat → ReaderState
  | 0 => .undefined
  | 1 => .unsignedInteger
  | 2 => .negativeInteger
  | 3 => .byteString
  | 4 => .textString
  | 5 => .startArray
  | 6 => .endArray
  | 7 => .startMap
  | 8 => .endMap
  | 9 => .tag
  | 10 => .simpleValue
  | 11 => .halfPrecisionFloat
  | 12 => .singlePrecisionFloat
  | 13 => .doublePrecisionFloat
  | 14 => .null
  | 15 => .boolean
  | 16 => .undefinedValue
  | 17 => .startIndefiniteLengthByteString
  | 18 => .endIndefiniteLengthByteString
  | 19 => .startIndefiniteLengthTextString
  | 20 => .endIndefiniteLengthTextString
  | 21 => .finished
  | _ => .undefined

/-- Major type constants (cbor.go). -/
def MajorTypeUnsignedInteger : Nat := 0

def MajorTypeNegativeInteger : Nat := 1

def MajorTypeByteString : Nat := 2

def MajorTypeTextString : Nat := 3

def MajorTypeArray : Nat := 4

def MajorTypeMap : Nat := 5

def MajorTypeTag : Nat := 6

def MajorTypeSimpleOrFloat : Nat := 7

/-- Additional-information constants (cbor.go). -/
def AdditionalInfo8Bit : Nat := 24

def AdditionalInfo16Bit : Nat := 25

def AdditionalInfo32Bit : Nat := 26

def AdditionalInfo64Bit : Nat := 27

def AdditionalInfoIndefiniteLength : Nat := 31

/-- Simple-value constants (cbor.go). -/
def SimpleValueFalse : Nat := 20

def SimpleValueTrue : Nat := 21

def SimpleValueNull : Nat := 22

def SimpleValueUndefined : Nat := 23

/-- Tag constants used by the modelled operations (cbor.go). -/
def TagUnsignedBignum : Nat := 2

def TagNegativeBignum : Nat := 3

/-- Conformance modes (cbor.go); the code compares them with `>=`, so the
iota ordinals matter. -/
def ConformanceLax : Nat := 0

def ConformanceStrict : Nat := 1

def ConformanceCanonical : Nat := 2

def ConformanceCtap2Canonical : Nat := 3

/-- Break byte (cbor.go). -/
def breakByte : Nat := 0xFF

/-- Go `encodeInitialByte(mt, ai) = byte(mt)<<5 | (ai & 0x1F)` (cbor.go).
On a byte, `byte(mt)<<5` is `(mt % 8) * 32`, and the two operands occupy
disjoint bit ranges, so the `|` is `+`. -/
def encodeInitialByte (mt ai : Nat) : Nat := mt % 8 * 32 + ai % 32

/-- Go `uint64(x)` applied to a signed integer: two's-complement wrap
into `[0, 2^64)`. -/
def uint64OfInt (x : Int) : Nat := (x % (2 ^ 64 : Int)).toNat

/-- Go `int(u)` / `int64(u)` applied to a `uint64` on a 64-bit platform:
two's-complement reinterpretation. -/
def int64OfUint64 (u : Nat) : Int :=
  if u < 2 ^ 63 then (u : Int) else (u : Int) - 2 ^ 64

/-- Go 64-bit signed wrap-around of an integer expression. -/
def wrapInt64 (x : Int) : Int := (x + 2 ^ 63) % 2 ^ 64 - 2 ^ 63

/-- Bytes appended by `binary.BigEndian.AppendUint16` (big-endian). -/
def be16 (v : Nat) : List Nat := [v / 2 ^ 8 % 256, v % 256]

/-- Bytes appended by `binary.BigEndian.AppendUint32` (big-endian). -/
def be32 (v : Nat) : List Nat :=
  [v / 2 ^ 24 % 256, v / 2 ^ 16 % 256, v / 2 ^ 8 % 256, v % 256]

/-- Bytes appended by `binary.BigEndian.AppendUint64` (big-endian). -/
def be64 (v : Nat) : List Nat :=
  [v / 2 ^ 56 % 256, v / 2 ^ 48 % 256, v / 2 ^ 40 % 256, v / 2 ^ 32 % 256,
   v / 2 ^ 24 % 256, v / 2 ^ 16 % 256, v / 2 ^ 8 % 256, v % 256]

/-- Writer frame `nestingInfo` (writer.go).  `itemsWritten` and
`definiteLength` are Go `int64` values (the `int64` wrap of
`itemsWritten++` is unreachable and not modelled). -/
structure NestingInfo where
  majorType : Nat
  definiteLength : Int
  itemsWritten : Int
  isMap : Bool
  keyWritten : Bool
  isIndefinite : Bool
  deriving DecidableEq

/-- Writer state `CborWriter` (writer.go).  The stored-but-never-consulted
`allowMultipleRootValues` option is omitted. -/
structure CborWriter where
  buffer : List Nat
  conformanceMode : Nat
  nestingStack : List NestingInfo
  maxNestingDepth : Nat
  currentOffset : Nat
  rootValueWritten : Bool
  deriving DecidableEq

/-- Go `NewCborWriter()` with no options (writer.go). -/
def NewCborWriter : CborWriter :=
  { buffer := []
    conformanceMode := ConformanceLax
    nestingStack := []
    maxNestingDepth := 64
    currentOffset := 0
    rootValueWritten := false }

/-- Go `checkNestingDepth` (writer.go). -/
def CborWriter.checkNestingDepth (w : CborWriter) : Option CborError :=
  if w.nestingStack.length ≥ w.maxNestingDepth then some .nestingDepthExceeded else none

/-- Go writer `advanceContainer` (writer.go). -/
def CborWriter.advanceContainer (w : CborWriter) : CborWriter :=
  match w.nestingStack with
  | [] => { w with rootValueWritten := true }
  | info :: rest =>
    if info.isMap then
      if info.keyWritten then
        { w with nestingStack :=
            { info with keyWritten := false, itemsWritten := info.itemsWritten + 1 } :: rest }
      else
        { w with nestingStack := { info with keyWritten := true } :: rest }
    else
      { w with nestingStack := { info with itemsWritten := info.itemsWritten + 1 } :: rest }

/-- Go `writeMinimalInitialByte` (writer.go): argument written in the
smallest of the five width classes, multi-byte arguments big-endian. -/
def CborWriter.writeMinimalInitialByte (w : CborWriter) (mt value : Nat) : CborWriter :=
  let buf :=
    if value < 24 then w.buffer ++ [encodeInitialByte mt value]
    else if value ≤ 0xFF then w.buffer ++ [encodeInitialByte mt AdditionalInfo8Bit, value]
    else if value ≤ 0xFFFF then
      w.buffer ++ [encodeInitialByte mt AdditionalInfo16Bit] ++ be16 value
    else if value ≤ 0xFFFFFFFF then
      w.buffer ++ [encodeInitialByte mt AdditionalInfo32Bit] ++ be32 value
    else w.buffer ++ [encodeInitialByte mt AdditionalInfo64Bit] ++ be64 value
  { w with buffer := buf, currentOffset := buf.length }

/-- Go `WriteUint64` (writer.go). -/
def CborWriter.WriteUint64 (w : CborWriter) (value : Nat) : Option CborError × CborWriter :=
  (none, (w.writeMinimalInitialByte MajorTypeUnsignedInteger value).advanceContainer)

/-- Go `WriteInt64` (writer.go): a negative value is encoded with major
type 1 and argument `uint64(-1 - value)`. -/
def CborWriter.WriteInt64 (w : CborWriter) (value : Int) : Option CborError × CborWriter :=
  if value ≥ 0 then
    (none, (w.writeMinimalInitialByte MajorTypeUnsignedInteger (uint64OfInt value)).advanceContainer)
  else
    (none, (w.writeMinimalInitialByte MajorTypeNegativeInteger
      (uint64OfInt (-1 - value))).advanceContainer)

/-- Go `WriteTag` (writer.go): writes the head and deliberately does not
advance the enclosing container. -/
def CborWriter.WriteTag (w : CborWriter) (tag : Nat) : Option CborError × CborWriter :=
  (none, w.writeMinimalInitialByte MajorTypeTag tag)

/-- Go `WriteStartArray` (writer.go). -/
def CborWriter.WriteStartArray (w : CborWriter) (length : Int) : Option CborError × CborWriter :=
  match w.checkNestingDepth with
  | some e => (some e, w)
  | none =>
    let w' := w.writeMinimalInitialByte MajorTypeArray (uint64OfInt length)
    (none, { w' with nestingStack :=
        { majorType := MajorTypeArray, definiteLength := length, itemsWritten := 0,
          isMap := false, keyWritten := false, isIndefinite := false } :: w'.nestingStack })

/-- Go `WriteStartIndefiniteLengthArray` (writer.go): the conformance-mode
check precedes the nesting-depth check. -/
def CborWriter.WriteStartIndefiniteLengthArray (w : CborWriter) :
    Option CborError × CborWriter :=
  if w.conformanceMode = ConformanceCanonical ∨ w.conformanceMode = ConformanceCtap2Canonical then
    (some .indefiniteLengthNotAllowed, w)
  else
    match w.checkNestingDepth with
    | some e => (some e, w)
    | none =>
      let buf := w.buffer ++ [encodeInitialByte MajorTypeArray AdditionalInfoIndefiniteLength]
      let fr : NestingInfo :=
        { majorType := MajorTypeArray, definiteLength := -1, itemsWritten := 0,
          isMap := false, keyWritten := false, isIndefinite := true }
      let w' : CborWriter :=
        { w with buffer := buf, currentOffset := buf.length
                 nestingStack := fr :: w.nestingStack }
      (none, w')

/-- Go `WriteEndArray` (writer.go). -/
def CborWriter.WriteEndArray (w : CborWriter) : Option CborError × CborWriter :=
  match w.nestingStack with
  | [] => (some .invalidState, w)
  | info :: rest =>
    if info.majorType ≠ MajorTypeArray then (some .invalidState, w)
    else if info.isIndefinite then
      let buf := w.buffer ++ [breakByte]
      let w' : CborWriter :=
        { w with buffer := buf, currentOffset := buf.length, nestingStack := rest }
      (none, w'.advanceContainer)
    else if info.itemsWritten ≠ info.definiteLength then
      if info.itemsWritten < info.definiteLength then (some .incompleteContainer, w)
      else (some .extraItems, w)
    else
      (none, ({ w with nestingStack := rest } : CborWriter).advanceContainer)

/-- Go `WriteStartMap` (writer.go). -/
def CborWriter.WriteStartMap (w : CborWriter) (length : Int) : Option CborError × CborWriter :=
  match w.checkNestingDepth with
  | some e => (some e, w)
  | none =>
    let w' := w.writeMinimalInitialByte MajorTypeMap (uint64OfInt length)
    (none, { w' with nestingStack :=
        { majorType := MajorTypeMap, definiteLength := length, itemsWritten := 0,
          isMap := true, keyWritten := false, isIndefinite := false } :: w'.nestingStack })

/-- Go `WriteStartIndefiniteLengthMap` (writer.go). -/
def CborWriter.WriteStartIndefiniteLengthMap (w : CborWriter) :
    Option CborError × CborWriter :=
  if w.conformanceMode = ConformanceCanonical ∨ w.conformanceMode = ConformanceCtap2Canonical then
    (some .indefiniteLengthNotAllowed, w)
  else
    match w.checkNestingDepth with
    | some e => (some e, w)
    | none =>
      let buf := w.buffer ++ [encodeInitialByte MajorTypeMap AdditionalInfoIndefiniteLength]
      let fr : NestingInfo :=
        { majorType := MajorTypeMap, definiteLength := -1, itemsWritten := 0,
          isMap := true, keyWritten := false, isIndefinite := true }
      let w' : CborWriter :=
        { w with buffer := buf, currentOffset := buf.length
                 nestingStack := fr :: w.nestingStack }
      (none, w')

/-- Go `WriteEndMap` (writer.go): the dangling-key check precedes the
break-byte emission and the count check. -/
def CborWriter.WriteEndMap (w : CborWriter) : Option CborError × CborWriter :=
  match w.nestingStack with
  | [] => (some .invalidState, w)
  | info :: rest =>
    if info.majorType ≠ MajorTypeMap then (some .invalidState, w)
    else if info.keyWritten then (some .incompleteContainer, w)
    else if info.isIndefinite then
      let buf := w.buffer ++ [breakByte]
      let w' : CborWriter :=
        { w with buffer := buf, currentOffset := buf.length, nestingStack := rest }
      (none, w'.advanceContainer)
    else if info.itemsWritten ≠ info.definiteLength then
      if info.itemsWritten < info.definiteLength then (some .incompleteContainer, w)
      else (some .extraItems, w)
    else
      (none, ({ w with nestingStack := rest } : CborWriter).advanceContainer)

/-- Go `WriteStartIndefiniteLengthByteString` (writer.go). -/
def CborWriter.WriteStartIndefiniteLengthByteString (w : CborWriter) :
    Option CborError × CborWriter :=
  if w.conformanceMode = ConformanceCanonical ∨ w.conformanceMode = ConformanceCtap2Canonical then
    (some .indefiniteLengthNotAllowed, w)
  else
    match w.checkNestingDepth with
    | some e => (some e, w)
    | none =>
      let buf := w.buffer ++ [encodeInitialByte MajorTypeByteString AdditionalInfoIndefiniteLength]
      let fr : NestingInfo :=
        { majorType := MajorTypeByteString, definiteLength := -1, itemsWritten := 0,
          isMap := false, keyWritten := false, isIndefinite := true }
      let w' : CborWriter :=
        { w with buffer := buf, currentOffset := buf.length
                 nestingStack := fr :: w.nestingStack }
      (none, w')

/-- Go `WriteStartIndefiniteLengthTextString` (writer.go). -/
def CborWriter.WriteStartIndefiniteLengthTextString (w : CborWriter) :
    Option CborError × CborWriter :=
  if w.conformanceMode = ConformanceCanonical ∨ w.conformanceMode = ConformanceCtap2Canonical then
    (some .indefiniteLengthNotAllowed, w)
  else
    match w.checkNestingDepth with
    | some e => (some e, w)
    | none =>
      let buf := w.buffer ++ [encodeInitialByte MajorTypeTextString AdditionalInfoIndefiniteLength]
      let fr : NestingInfo :=
        { majorType := MajorTypeTextString, definiteLength := -1, itemsWritten := 0,
          isMap := false, keyWritten := false, isIndefinite := true }
      let w' : CborWriter :=
        { w with buffer := buf, currentOffset := buf.length
                 nestingStack := fr :: w.nestingStack }
      (none, w')

/-- Reader frame `readerNestingInfo` (rfc8949_test.go). -/
structure ReaderNestingInfo where
  majorType : Nat
  definiteLength : Int
  itemsRead : Int
  isMap : Bool
  keyRead : Bool
  isIndefinite : Bool
  deriving DecidableEq

/-- Reader state `CborReader` (rfc8949_test.go).  The stored-but-never-consulted
`allowMultipleRootValues` option is omitted. -/
structure CborReader where
  data : List Nat
  offset : Nat
  conformanceMode : Nat
  nestingStack : List ReaderNestingInfo
  maxNestingDepth : Nat
  cachedState : ReaderState
  stateComputed : Bool
  deriving DecidableEq

/-- Go `NewCborReader(data)` with no options (rfc8949_test.go); the zero
value of `cachedState` is `StateUndefined`. -/
def NewCborReader (data : List Nat) : CborReader :=
  { data := data
    offset := 0
    conformanceMode := ConformanceLax
    nestingStack := []
    maxNestingDepth := 64
    cachedState := .undefined
    stateComputed := false }

/-- Outcome of a reader operation: the returned value or error together with
the receiver's state at the Go return point; `panicked` models a Go runtime
panic (slice index out of range, `make` length out of range). -/
inductive ROut (α : Type) where
  | ok (val : α) (r : CborReader)
  | err (e : CborError) (r : CborReader)
  | panicked

/-- Go `invalidateState` (rfc8949_test.go). -/
def CborReader.invalidateState (r : CborReader) : CborReader :=
  { r with stateComputed := false }

/-- Go reader `advanceContainer` (rfc8949_test.go); when a frame is updated
the cached state is invalidated, and with no open frame nothing changes. -/
def CborReader.advanceContainer (r : CborReader) : CborReader :=
  match r.nestingStack with
  | [] => r
  | info :: rest =>
    let r' :=
      if info.isMap then
        if info.keyRead then
          { r with nestingStack :=
              { info with keyRead := false, itemsRead := info.itemsRead + 1 } :: rest }
        else
          { r with nestingStack := { info with keyRead := true } :: rest }
      else
        { r with nestingStack := { info with itemsRead := info.itemsRead + 1 } :: rest }
    { r' with stateComputed := false }

/-- Classification of an initial byte by major type and additional info:
the tail of Go `computeState` after the break-byte handling
(rfc8949_test.go).  `mt = b >> 5`, `ai = b & 0x1F`. -/
def classifyInitialByte (b : Nat) : Except CborError ReaderState :=
  let mt := b / 32
  let ai := b % 32
  if mt = MajorTypeUnsignedInteger then .ok .unsignedInteger
  else if mt = MajorTypeNegativeInteger then .ok .negativeInteger
  else if mt = MajorTypeByteString then
    if ai = AdditionalInfoIndefiniteLength then .ok .startIndefiniteLengthByteString
    else .ok .byteString
  else if mt = MajorTypeTextString then
    if ai = AdditionalInfoIndefiniteLength then .ok .startIndefiniteLengthTextString
    else .ok .textString
  else if mt = MajorTypeArray then .ok .startArray
  else if mt = MajorTypeMap then .ok .startMap
  else if mt = MajorTypeTag then .ok .tag
  else if mt = MajorTypeSimpleOrFloat then
    if ai = SimpleValueFalse ∨ ai = SimpleValueTrue then .ok .boolean
    else if ai = SimpleValueNull then .ok .null
    else if ai = SimpleValueUndefined then .ok .undefinedValue
    else if ai = 24 then .ok .simpleValue
    else if ai = 25 then .ok .halfPrecisionFloat
    else if ai = 26 then .ok .singlePrecisionFloat
    else if ai = 27 then .ok .doublePrecisionFloat
    else if ai < 24 then .ok .simpleValue
    else .error .invalidSimpleValue
  else .error .invalidMajorType

/-- Tail of Go `computeState` after the exhausted-definite-frame check
(rfc8949_test.go): end-of-data handling, break-byte handling, and the
initial-byte classification.  When a break byte is seen inside an
indefinite frame whose major type is none of array/map/byte-string/
text-string, the Go switch falls through to the ordinary classification
of the byte 0xFF (unreachable for frames the reader pushes). -/
def CborReader.computeStateMain (r : CborReader) : Except CborError ReaderState :=
  if r.offset ≥ r.data.length then
    if r.nestingStack.length > 0 then .error .unexpectedEndOfData
    else .ok .finished
  else
    let initialByte := r.data.getD r.offset 0
    if initialByte = breakByte then
      match r.nestingStack with
      | [] => .error .unexpectedBreak
      | info :: _ =>
        if ¬ info.isIndefinite then .error .unexpectedBreak
        else if info.majorType = MajorTypeArray then .ok .endArray
        else if info.majorType = MajorTypeMap then
          if info.keyRead then .error .incompleteContainer
          else .ok .endMap
        else if info.majorType = MajorTypeByteString then .ok .endIndefiniteLengthByteString
        else if info.majorType = MajorTypeTextString then .ok .endIndefiniteLengthTextString
        else classifyInitialByte initialByte
    else classifyInitialByte initialByte

/-- Go `computeState` (rfc8949_test.go). -/
def CborReader.computeState (r : CborReader) : Except CborError ReaderState :=
  match r.nestingStack with
  | info :: _ =>
    if ¬ info.isIndefinite ∧ info.itemsRead ≥ info.definiteLength then
      .ok (if info.isMap then .endMap else .endArray)
    else r.computeStateMain
  | [] => r.computeStateMain

/-- Go `PeekState` (rfc8949_test.go): returns the cached state when
computed, otherwise computes and caches it. -/
def CborReader.PeekState (r : CborReader) : ROut ReaderState :=
  if r.stateComputed then .ok r.cachedState r
  else
    match r.computeState with
    | .error e => .err e r
    | .ok s => .ok s { r with cachedState := s, stateComputed := true }

/-- Go `readArgumentValue` (rfc8949_test.go): checks the major type,
consumes the head, decodes the argument by width, and in modes at or above
strict rejects non-minimal encodings with `NonCanonical`. -/
def CborReader.readArgumentValue (r : CborReader) (mt : Nat) : ROut Nat :=
  if r.offset ≥ r.data.length then .err .unexpectedEndOfData r
  else
    let initialByte := r.data.getD r.offset 0
    let actualMt := initialByte / 32
    let ai := initialByte % 32
    if actualMt ≠ mt then
      .err (.typeMismatch (readerStateOfNat mt) (readerStateOfNat actualMt)) r
    else
      let r1 : CborReader := { r with offset := r.offset + 1 }
      if ai < 24 then .ok ai r1
      else if ai = 24 then
        if r1.offset ≥ r1.data.length then .err .unexpectedEndOfData r1
        else
          let val := r1.data.getD r1.offset 0
          let r2 : CborReader := { r1 with offset := r1.offset + 1 }
          if r2.conformanceMode ≥ ConformanceStrict ∧ val < 24 then .err .nonCanonical r2
          else .ok val r2
      else if ai = 25 then
        if r1.offset + 2 > r1.data.length then .err .unexpectedEndOfData r1
        else
          let val := r1.data.getD r1.offset 0 * 2 ^ 8 + r1.data.getD (r1.offset + 1) 0
          let r2 : CborReader := { r1 with offset := r1.offset + 2 }
          if r2.conformanceMode ≥ ConformanceStrict ∧ val ≤ 0xFF then .err .nonCanonical r2
          else .ok val r2
      else if ai = 26 then
        if r1.offset + 4 > r1.data.length then .err .unexpectedEndOfData r1
        else
          let val := r1.data.getD r1.offset 0 * 2 ^ 24 + r1.data.getD (r1.offset + 1) 0 * 2 ^ 16 +
            r1.data.getD (r1.offset + 2) 0 * 2 ^ 8 + r1.data.getD (r1.offset + 3) 0
          let r2 : CborReader := { r1 with offset := r1.offset + 4 }
          if r2.conformanceMode ≥ ConformanceStrict ∧ val ≤ 0xFFFF then .err .nonCanonical r2
          else .ok val r2
      else if ai = 27 then
        if r1.offset + 8 > r1.data.length then .err .unexpectedEndOfData r1
        else
          let val := r1.data.getD r1.offset 0 * 2 ^ 56 + r1.data.getD (r1.offset + 1) 0 * 2 ^ 48 +
            r1.data.getD (r1.offset + 2) 0 * 2 ^ 40 + r1.data.getD (r1.offset + 3) 0 * 2 ^ 32 +
            r1.data.getD (r1.offset + 4) 0 * 2 ^ 24 + r1.data.getD (r1.offset + 5) 0 * 2 ^ 16 +
            r1.data.getD (r1.offset + 6) 0 * 2 ^ 8 + r1.data.getD (r1.offset + 7) 0
          let r2 : CborReader := { r1 with offset := r1.offset + 8 }
          if r2.conformanceMode ≥ ConformanceStrict ∧ val ≤ 0xFFFFFFFF then .err .nonCanonical r2
          else .ok val r2
      else if ai = 31 then .ok 0 r1
      else .err .invalidCbor r1

/-- Go `ReadUint64` (rfc8949_test.go). -/
def CborReader.ReadUint64 (r : CborReader) : ROut Nat :=
  match r.PeekState with
  | .err e r => .err e r
  | .panicked => .panicked
  | .ok state r =>
    if state ≠ .unsignedInteger then .err (.typeMismatch .unsignedInteger state) r
    else
      let r := r.invalidateState
      match r.readArgumentValue MajorTypeUnsignedInteger with
      | .err e r => .err e r
      | .panicked => .panicked
      | .ok val r => .ok val r.advanceContainer

/-- Go `math.MaxInt64`. -/
def maxInt64 : Nat := 2 ^ 63 - 1

/-- Go `ReadInt64` (rfc8949_test.go): an unsigned or negative integer,
range-checked against `int64`; a negative integer with argument `v`
decodes to `-1 - v`. -/
def CborReader.ReadInt64 (r : CborReader) : ROut Int :=
  match r.PeekState with
  | .err e r => .err e r
  | .panicked => .panicked
  | .ok state r =>
    let r := r.invalidateState
    if state = .unsignedInteger then
      match r.readArgumentValue MajorTypeUnsignedInteger with
      | .err e r => .err e r
      | .panicked => .panicked
      | .ok val r =>
        if val > maxInt64 then .err .overflow r
        else .ok (val : Int) r.advanceContainer
    else if state = .negativeInteger then
      match r.readArgumentValue MajorTypeNegativeInteger with
      | .err e r => .err e r
      | .panicked => .panicked
      | .ok val r =>
        if val > maxInt64 then .err .overflow r
        else .ok (-1 - (val : Int)) r.advanceContainer
    else .err (.typeMismatch .unsignedInteger state) r

/-- Go `ReadTag` (rfc8949_test.go): reads the major-type-6 head and
deliberately does not advance the enclosing container. -/
def CborReader.ReadTag (r : CborReader) : ROut Nat :=
  match r.PeekState with
  | .err e r => .err e r
  | .panicked => .panicked
  | .ok state r =>
    if state ≠ .tag then .err (.typeMismatch .tag state) r
    else
      let r := r.invalidateState
      match r.readArgumentValue MajorTypeTag with
      | .err e r => .err e r
      | .panicked => .panicked
      | .ok val r => .ok val r

/-- Chunk loop of Go `readIndefiniteByteString` (rfc8949_test.go), with
explicit fuel: every iteration that continues consumes at least one byte,
so fuel `r.data.length + 1` is never exhausted (the fuel-0 branch is
unreachable).  The chunk length check reproduces the Go expression
`r.offset + int(length) > len(r.data)` with its 64-bit wrap-around, and a
passing check followed by an upper bound below the lower bound is the
slice panic. -/
def CborReader.readIndefiniteChunksLoop (fuel : Nat) (r : CborReader) (acc : List Nat) :
    ROut (List Nat) :=
  match fuel with
  | 0 => .err .unexpectedEndOfData r
  | fuel + 1 =>
    if r.offset ≥ r.data.length then .err .unexpectedEndOfData r
    else if r.data.getD r.offset 0 = breakByte then
      .ok acc { r with offset := r.offset + 1 }
    else if r.data.getD r.offset 0 / 32 ≠ MajorTypeByteString then .err .invalidCbor r
    else
      match r.readArgumentValue MajorTypeByteString with
      | .err e r => .err e r
      | .panicked => .panicked
      | .ok length r =>
        let hi : Int := wrapInt64 ((r.offset : Int) + int64OfUint64 length)
        if hi > (r.data.length : Int) then .err .unexpectedEndOfData r
        else if hi < (r.offset : Int) then .panicked
        else
          CborReader.readIndefiniteChunksLoop fuel { r with offset := r.offset + length }
            (acc ++ (r.data.drop r.offset).take length)

/-- Go `readIndefiniteByteString` (rfc8949_test.go). -/
def CborReader.readIndefiniteByteString (r : CborReader) : ROut (List Nat) :=
  if r.conformanceMode ≥ ConformanceCanonical then .err .indefiniteLengthNotAllowed r
  else
    let r1 : CborReader := { r with offset := r.offset + 1, stateComputed := false }
    match r1.readIndefiniteChunksLoop (r1.data.length + 1) [] with
    | .err e r => .err e r
    | .panicked => .panicked
    | .ok acc r => .ok acc r.advanceContainer

/-- Go `ReadByteString` (rfc8949_test.go).  The Go bound check is
`r.offset + int(length) > len(r.data)` computed in 64-bit `int`
arithmetic; when it passes, `make([]byte, length)` and the slice
`r.data[r.offset : r.offset+int(length)]` panic exactly when the upper
bound lies below `r.offset` (a declared length at or above `2^63`, or an
overflowing sum), and otherwise the payload is copied out. -/
def CborReader.ReadByteString (r : CborReader) : ROut (List Nat) :=
  match r.PeekState with
  | .err e r => .err e r
  | .panicked => .panicked
  | .ok state r =>
    if state = .startIndefiniteLengthByteString then r.readIndefiniteByteString
    else if state ≠ .byteString then .err (.typeMismatch .byteString state) r
    else
      let r := r.invalidateState
      match r.readArgumentValue MajorTypeByteString with
      | .err e r => .err e r
      | .panicked => .panicked
      | .ok length r =>
        let hi : Int := wrapInt64 ((r.offset : Int) + int64OfUint64 length)
        if hi > (r.data.length : Int) then .err .unexpectedEndOfData r
        else if hi < (r.offset : Int) then .panicked
        else
          .ok ((r.data.drop r.offset).take length)
            ({ r with offset := r.offset + length } : CborReader).advanceContainer

/-- Go `big.Int.SetBytes`: the unsigned big-endian integer of a byte
slice. -/
def bytesToNat (bs : List Nat) : Nat := bs.foldl (fun acc b => acc * 256 + b) 0

/-- Go `ReadBigInt` (rfc8949_test.go), with `*big.Int` modelled as `Int`.
When `ReadInt64` fails on a negative integer, the code sets and then
immediately invalidates the cached state and calls `readArgumentValue`
again on whatever the failed `ReadInt64` left behind. -/
def CborReader.ReadBigInt (r : CborReader) : ROut Int :=
  match r.PeekState with
  | .err e r => .err e r
  | .panicked => .panicked
  | .ok state r =>
    if state = .unsignedInteger then
      match r.ReadUint64 with
      | .err e r => .err e r
      | .panicked => .panicked
      | .ok val r => .ok (val : Int) r
    else if state = .negativeInteger then
      match r.ReadInt64 with
      | .ok val r => .ok val r
      | .panicked => .panicked
      | .err _ r =>
        let r : CborReader := { r with stateComputed := true, cachedState := .negativeInteger }
        let r := r.invalidateState
        match r.readArgumentValue MajorTypeNegativeInteger with
        | .err e2 r => .err e2 r
        | .panicked => .panicked
        | .ok raw r => .ok (-1 - (raw : Int)) r.advanceContainer
    else if state = .tag then
      match r.ReadTag with
      | .err e r => .err e r
      | .panicked => .panicked
      | .ok tag r =>
        if tag = TagUnsignedBignum then
          match r.ReadByteString with
          | .err e r => .err e r
          | .panicked => .panicked
          | .ok bs r => .ok (bytesToNat bs : Int) r
        else if tag = TagNegativeBignum then
          match r.ReadByteString with
          | .err e r => .err e r
          | .panicked => .panicked
          | .ok bs r => .ok (-1 - (bytesToNat bs : Int)) r
        else .err (.typeMismatch .unsignedInteger .tag) r
    else .err (.typeMismatch .unsignedInteger state) r

/-- Go `ReadStartArray` (rfc8949_test.go): the nesting-depth check comes
before the indefinite-length handling; the returned length and the frame's
declared length are `int(length)` / `int64(length)`. -/
def CborReader.ReadStartArray (r : CborReader) : ROut Int :=
  match r.PeekState with
  | .err e r => .err e r
  | .panicked => .panicked
  | .ok state r =>
    if state ≠ .startArray then .err (.typeMismatch .startArray state) r
    else if r.nestingStack.length ≥ r.maxNestingDepth then .err .nestingDepthExceeded r
    else
      let r := r.invalidateState
      if r.data.getD r.offset 0 =
          encodeInitialByte MajorTypeArray AdditionalInfoIndefiniteLength then
        if r.conformanceMode ≥ ConformanceCanonical then .err .indefiniteLengthNotAllowed r
        else
          let fr : ReaderNestingInfo :=
            { majorType := MajorTypeArray, definiteLength := -1, itemsRead := 0,
              isMap := false, keyRead := false, isIndefinite := true }
          .ok (-1) { r with offset := r.offset + 1, nestingStack := fr :: r.nestingStack }
      else
        match r.readArgumentValue MajorTypeArray with
        | .err e r => .err e r
        | .panicked => .panicked
        | .ok length r =>
          let fr : ReaderNestingInfo :=
            { majorType := MajorTypeArray, definiteLength := int64OfUint64 length,
              itemsRead := 0, isMap := false, keyRead := false, isIndefinite := false }
          .ok (int64OfUint64 length) { r with nestingStack := fr :: r.nestingStack }

/-- Go `ReadStartMap` (rfc8949_test.go). -/
def CborReader.ReadStartMap (r : CborReader) : ROut Int :=
  match r.PeekState with
  | .err e r => .err e r
  | .panicked => .panicked
  | .ok state r =>
    if state ≠ .startMap then .err (.typeMismatch .startMap state) r
    else if r.nestingStack.length ≥ r.maxNestingDepth then .err .nestingDepthExceeded r
    else
      let r := r.invalidateState
      if r.data.getD r.offset 0 =
          encodeInitialByte MajorTypeMap AdditionalInfoIndefiniteLength then
        if r.conformanceMode ≥ ConformanceCanonical then .err .indefiniteLengthNotAllowed r
        else
          let fr : ReaderNestingInfo :=
            { majorType := MajorTypeMap, definiteLength := -1, itemsRead := 0,
              isMap := true, keyRead := false, isIndefinite := true }
          .ok (-1) { r with offset := r.offset + 1, nestingStack := fr :: r.nestingStack }
      else
        match r.readArgumentValue MajorTypeMap with
        | .err e r => .err e r
        | .panicked => .panicked
        | .ok length r =>
          let fr : ReaderNestingInfo :=
            { majorType := MajorTypeMap, definiteLength := int64OfUint64 length,
              itemsRead := 0, isMap := true, keyRead := false, isIndefinite := false }
          .ok (int64OfUint64 length) { r with nestingStack := fr :: r.nestingStack }

/-- Normalization loop of a binary16 subnormal in Go `float16BitsToFloat32`
(writer.go): `for frac&0x400 == 0 { frac <<= 1; exp-- }`, with explicit
fuel.  For a fraction in `[1, 0x3FF]` the loop runs at most ten times, so
fuel 11 is never exhausted. -/
def normalizeSubnormalLoop : Nat → Nat → Int → Nat × Int
  | 0, frac, exp => (frac, exp)
  | fuel + 1, frac, exp =>
    if frac / 2 ^ 10 % 2 = 0 then normalizeSubnormalLoop fuel (frac * 2) (exp - 1)
    else (frac, exp)

/-- Go `float32ToFloat16Bits` (writer.go), on the raw float32 bit pattern
(`math.Float32bits` is a bit cast).  `sign = uint16((bits>>16) & 0x8000)`,
`exp = int((bits>>23) & 0xFF)`, `frac = bits & 0x7FFFFF`; unions of
disjoint bit ranges are sums. -/
def float32ToFloat16Bits (bits : Nat) : Nat :=
  let sign := bits / 2 ^ 31 % 2 * 2 ^ 15
  let exp := bits / 2 ^ 23 % 2 ^ 8
  let frac := bits % 2 ^ 23
  if exp = 0 then sign
  else if exp = 255 then
    if frac = 0 then sign + 0x7C00
    else sign + 0x7C00 + frac / 2 ^ 13
  else if exp > 142 then sign + 0x7C00
  else if exp < 113 then sign
  else
    -- Go computes exp16 = exp - 127 + 15 in int; this branch has exp ≥ 113,
    -- so the value is exp - 112
    let exp16 := exp - 112
    let frac16 := frac / 2 ^ 13
    sign + exp16 * 2 ^ 10 + frac16

/-- Go `float16BitsToFloat32` (writer.go), on bit patterns
(`math.Float32frombits` is a bit cast).  `sign = uint32(bits&0x8000)<<16`,
`exp = int(bits>>10) & 0x1F`, `frac = uint32(bits & 0x3FF)`.  The
subnormal branch normalizes and then falls through into the `exp < 31`
branch; on every reachable path `exp - 15 + 127` is non-negative. -/
def float16BitsToFloat32Bits (bits : Nat) : Nat :=
  let sign := bits / 2 ^ 15 % 2 * 2 ^ 31
  let exp : Int := (bits / 2 ^ 10 % 2 ^ 5 : Nat)
  let frac := bits % 2 ^ 10
  if exp = 0 ∧ frac = 0 then sign
  else
    let p : Nat × Int :=
      if exp = 0 then
        let fe := normalizeSubnormalLoop 11 frac exp
        (fe.1 % 2 ^ 10, fe.2 + 1)
      else (frac, exp)
    if exp = 0 ∨ p.2 < 31 then
      let exp32 := (p.2 - 15 + 127).toNat
      sign + exp32 * 2 ^ 23 + p.1 * 2 ^ 13
    else
      if p.1 = 0 then sign + 0x7F800000
      else sign + 0x7F800000 + p.1 * 2 ^ 13

/-- Value of a successful reader outcome. -/
def ROut.okVal? {α : Type} : ROut α → Option α
  | .ok v _ => some v
  | _ => none

/-- Error kind of a failed reader outcome. -/
def ROut.errKind? {α : Type} : ROut α → Option CborError
  | .err e _ => some e
  | _ => none

/-- Whether a reader outcome is a Go runtime panic. -/
def ROut.isPanic {α : Type} : ROut α → Bool
  | .panicked => true
  | _ => false

/-- Minimal-width CBOR head as the spec describes it: an argument below 24
is immediate in the initial byte; otherwise the argument follows the
initial byte in the smallest of the 1/2/4/8-byte big-endian forms
(additional info 24/25/26/27). -/
def minimalHead (mt v : Nat) : List Nat :=
  if v < 24 then [encodeInitialByte mt v]
  else if v ≤ 0xFF then [encodeInitialByte mt AdditionalInfo8Bit, v]
  else if v ≤ 0xFFFF then encodeInitialByte mt AdditionalInfo16Bit :: be16 v
  else if v ≤ 0xFFFFFFFF then encodeInitialByte mt AdditionalInfo32Bit :: be32 v
  else encodeInitialByte mt AdditionalInfo64Bit :: be64 v

/-- The reader-state classification of a head byte for major types 0..6. -/
def headState (mt : Nat) : ReaderState :=
  [ReaderState.unsignedInteger, .negativeInteger, .byteString, .textString,
   .startArray, .startMap, .tag].getD mt .undefined

/-- Offset of the reader after a successful outcome. -/
def ROut.okOffset? {α : Type} : ROut α → Option Nat
  | .ok _ r => some r.offset
  | _ => none

/-- Consecutive nested `WriteStartArray(1)` calls, stopping at the first
error: the scenario of the nesting-cap claim. -/
def iterStartArray : Nat → CborWriter → Option CborError × CborWriter
  | 0, w => (none, w)
  | n + 1, w =>
    match w.WriteStartArray 1 with
    | (some e, w') => (some e, w')
    | (none, w') => iterStartArray n w'

theorem writeMinimalInitialByte_buffer (w : CborWriter) (mt v : Nat) :
    (w.writeMinimalInitialByte mt v).buffer = w.buffer ++ minimalHead mt v := by
  simp only [CborWriter.writeMinimalInitialByte, minimalHead]
  split_ifs <;> simp

theorem writeMinimalInitialByte_fields (w : CborWriter) (mt v : Nat) :
    (w.writeMinimalInitialByte mt v).nestingStack = w.nestingStack ∧
    (w.writeMinimalInitialByte mt v).conformanceMode = w.conformanceMode ∧
    (w.writeMinimalInitialByte mt v).maxNestingDepth = w.maxNestingDepth ∧
    (w.writeMinimalInitialByte mt v).rootValueWritten = w.rootValueWritten :=
  ⟨rfl, rfl, rfl, rfl⟩

theorem advanceContainer_buffer (w : CborWriter) :
    w.advanceContainer.buffer = w.buffer := by
  unfold CborWriter.advanceContainer
  rcases w.nestingStack with _ | ⟨info, rest⟩ <;> simp <;> split_ifs <;> rfl

/-- C2.  Minimal-width argument encoding: for every major type and every
argument value, `writeMinimalInitialByte` appends exactly the minimal head
(immediate below 24, then the smallest of the 1/2/4/8-byte big-endian
forms), for every writer state — in particular in every conformance mode,
lax included, and the appended bytes do not depend on the mode. -/
theorem c2_minimal_argument_encoding :
    (∀ (w : CborWriter) (mt v : Nat),
      (w.writeMinimalInitialByte mt v).buffer = w.buffer ++ minimalHead mt v) ∧
    (∀ (w : CborWriter) (mode mode' : Nat) (mt v : Nat),
      (CborWriter.writeMinimalInitialByte { w with conformanceMode := mode } mt v).buffer =
      (CborWriter.writeMinimalInitialByte { w with conformanceMode := mode' } mt v).buffer) := by
  refine ⟨fun w mt v => writeMinimalInitialByte_buffer w mt v, fun w mode mode' mt v => ?_⟩
  rw [writeMinimalInitialByte_buffer, writeMinimalInitialByte_buffer]

theorem readArgumentValue_minimalHead (mt v : Nat) (hmt : mt < 8) (hv : v < 2 ^ 64)
    (r : CborReader) (rest : List Nat)
    (hdata : r.data = minimalHead mt v ++ rest) (hoff : r.offset = 0) :
    r.readArgumentValue mt = .ok v { r with offset := (minimalHead mt v).length } := by
  have hmt8 : mt % 8 = mt := Nat.mod_eq_of_lt hmt
  by_cases h1 : v < 24
  · have hd : minimalHead mt v = [encodeInitialByte mt v] := by
      simp [minimalHead, h1]
    have hb1 : encodeInitialByte mt v / 32 = mt := by unfold encodeInitialByte; omega
    have hb2 : encodeInitialByte mt v % 32 = v := by unfold encodeInitialByte; omega
    simp [CborReader.readArgumentValue, hdata, hoff, hd, hb1, hb2, h1]
  · by_cases h2 : v ≤ 0xFF
    · have hd : minimalHead mt v = [encodeInitialByte mt AdditionalInfo8Bit, v] := by
        simp [minimalHead, h1, h2]
      have hb1 : encodeInitialByte mt AdditionalInfo8Bit / 32 = mt := by
        unfold encodeInitialByte AdditionalInfo8Bit; omega
      have hb2 : encodeInitialByte mt AdditionalInfo8Bit % 32 = 24 := by
        unfold encodeInitialByte AdditionalInfo8Bit; omega
      simp [CborReader.readArgumentValue, hdata, hoff, hd, hb1, hb2, h1, h2]
    · by_cases h3 : v ≤ 0xFFFF
      · have hd : minimalHead mt v =
            [encodeInitialByte mt AdditionalInfo16Bit, v / 2 ^ 8 % 256, v % 256] := by
          simp [minimalHead, be16, h1, h2, h3]
        have hb1 : encodeInitialByte mt AdditionalInfo16Bit / 32 = mt := by
          unfold encodeInitialByte AdditionalInfo16Bit; omega
        have hb2 : encodeInitialByte mt AdditionalInfo16Bit % 32 = 25 := by
          unfold encodeInitialByte AdditionalInfo16Bit; omega
        simp [CborReader.readArgumentValue, hdata, hoff, hd, hb1, hb2, h2, h3]
        rw [if_neg (by omega)]
        split_ifs with hc
        · exact absurd hc.2 (by omega)
        · simp only [ROut.ok.injEq]
          exact ⟨by omega, trivial⟩
      · by_cases h4 : v ≤ 0xFFFFFFFF
        · have hd : minimalHead mt v = [encodeInitialByte mt AdditionalInfo32Bit,
              v / 2 ^ 24 % 256, v / 2 ^ 16 % 256, v / 2 ^ 8 % 256, v % 256] := by
            simp [minimalHead, be32, h1, h2, h3, h4]
          have hb1 : encodeInitialByte mt AdditionalInfo32Bit / 32 = mt := by
            unfold encodeInitialByte AdditionalInfo32Bit; omega
          have hb2 : encodeInitialByte mt AdditionalInfo32Bit % 32 = 26 := by
            unfold encodeInitialByte AdditionalInfo32Bit; omega
          simp [CborReader.readArgumentValue, hdata, hoff, hd, hb1, hb2, h3, h4]
          rw [if_neg (by omega)]
          split_ifs with hc
          · exact absurd hc.2 (by omega)
          · simp only [ROut.ok.injEq]
            exact ⟨by omega, trivial⟩
        · have hd : minimalHead mt v = [encodeInitialByte mt AdditionalInfo64Bit,
              v / 2 ^ 56 % 256, v / 2 ^ 48 % 256, v / 2 ^ 40 % 256, v / 2 ^ 32 % 256,
              v / 2 ^ 24 % 256, v / 2 ^ 16 % 256, v / 2 ^ 8 % 256, v % 256] := by
            simp [minimalHead, be64, h1, h2, h3, h4]
          have hb1 : encodeInitialByte mt AdditionalInfo64Bit / 32 = mt := by
            unfold encodeInitialByte AdditionalInfo64Bit; omega
          have hb2 : encodeInitialByte mt AdditionalInfo64Bit % 32 = 27 := by
            unfold encodeInitialByte AdditionalInfo64Bit; omega
          simp [CborReader.readArgumentValue, hdata, hoff, hd, hb1, hb2, h4]
          rw [if_neg (by omega)]
          split_ifs with hc
          · exact absurd hc.2 (by omega)
          · simp only [ROut.ok.injEq]
            exact ⟨by omega, trivial⟩

theorem minimalHead_length_pos (mt v : Nat) : 0 < (minimalHead mt v).length := by
  unfold minimalHead
  split_ifs <;> simp [be16, be32, be64]

theorem minimalHead_getD_zero (mt v : Nat) (rest : List Nat) :
    ∃ ai, ai < 28 ∧ (minimalHead mt v ++ rest).getD 0 0 = encodeInitialByte mt ai := by
  unfold minimalHead
  split_ifs with h1 h2 h3 h4
  · exact ⟨v, by omega, by simp⟩
  · exact ⟨24, by omega, by simp [AdditionalInfo8Bit]⟩
  · exact ⟨25, by omega, by simp [AdditionalInfo16Bit, be16]⟩
  · exact ⟨26, by omega, by simp [AdditionalInfo32Bit, be32]⟩
  · exact ⟨27, by omega, by simp [AdditionalInfo64Bit, be64]⟩

theorem classify_encode (mt ai : Nat) (hmt : mt < 7) (hai : ai < 28) :
    classifyInitialByte (encodeInitialByte mt ai) = .ok (headState mt) := by
  have hdiv : encodeInitialByte mt ai / 32 = mt := by unfold encodeInitialByte; omega
  have hmod : encodeInitialByte mt ai % 32 = ai := by unfold encodeInitialByte; omega
  interval_cases mt <;>
    simp [classifyInitialByte, headState, hdiv, hmod, MajorTypeUnsignedInteger,
      MajorTypeNegativeInteger, MajorTypeByteString, MajorTypeTextString, MajorTypeArray,
      MajorTypeMap, MajorTypeTag, MajorTypeSimpleOrFloat, AdditionalInfoIndefiniteLength] <;>
    omega

theorem computeStateMain_eval (r : CborReader) (hlen : r.offset < r.data.length)
    (hbyte : r.data.getD r.offset 0 ≠ breakByte) :
    r.computeStateMain = classifyInitialByte (r.data.getD r.offset 0) := by
  unfold CborReader.computeStateMain
  rw [if_neg (by omega), if_neg hbyte]

theorem computeState_eval (r : CborReader)
    (hstack : r.nestingStack = [] ∨ ∃ info tl, r.nestingStack = info :: tl ∧
      (info.isIndefinite = true ∨ info.itemsRead < info.definiteLength)) :
    r.computeState = r.computeStateMain := by
  unfold CborReader.computeState
  rcases hstack with h | ⟨info, tl, h, hok⟩ <;> rw [h]
  rcases hok with hok | hok <;> simp [hok]

theorem peekState_minimalHead (mt v : Nat) (hmt : mt < 7) (r : CborReader) (rest : List Nat)
    (hdata : r.data = minimalHead mt v ++ rest) (hoff : r.offset = 0)
    (hsc : r.stateComputed = false)
    (hstack : r.nestingStack = [] ∨ ∃ info tl, r.nestingStack = info :: tl ∧
      (info.isIndefinite = true ∨ info.itemsRead < info.definiteLength)) :
    r.PeekState = .ok (headState mt)
      { r with cachedState := headState mt, stateComputed := true } := by
  obtain ⟨ai, hai, hb⟩ := minimalHead_getD_zero mt v rest
  have hlen : r.offset < r.data.length := by
    rw [hdata, hoff]
    simp only [List.length_append]
    have := minimalHead_length_pos mt v
    omega
  have hbyte : r.data.getD r.offset 0 = encodeInitialByte mt ai := by
    rw [hdata, hoff]; exact hb
  have hne : r.data.getD r.offset 0 ≠ breakByte := by
    rw [hbyte]; unfold encodeInitialByte breakByte; omega
  have hcs : r.computeState = .ok (headState mt) := by
    rw [computeState_eval r hstack, computeStateMain_eval r hlen hne, hbyte,
      classify_encode mt ai hmt hai]
  unfold CborReader.PeekState
  rw [hsc]
  simp [hcs]

theorem readUint64_minimalHead (u : Nat) (hu : u < 2 ^ 64) (r : CborReader) (rest : List Nat)
    (hdata : r.data = minimalHead 0 u ++ rest) (hoff : r.offset = 0)
    (hsc : r.stateComputed = false) (hstack : r.nestingStack = []) :
    r.ReadUint64 = .ok u
      ({ r with cachedState := headState 0, stateComputed := false
                offset := (minimalHead 0 u).length } : CborReader) := by
  have hpeek := peekState_minimalHead 0 u (by omega) r rest hdata hoff hsc (Or.inl hstack)
  unfold CborReader.ReadUint64
  rw [hpeek]
  have harg := readArgumentValue_minimalHead 0 u (by omega) hu
    (({ r with cachedState := headState 0, stateComputed := true } : CborReader).invalidateState)
    rest (by simpa [CborReader.invalidateState] using hdata) (by simpa [CborReader.invalidateState] using hoff)
  simp only [headState, CborReader.invalidateState] at harg ⊢
  simp only [MajorTypeUnsignedInteger]
  rw [harg]
  simp [CborReader.advanceContainer, hstack]

theorem readInt64_minimalHead_pos (u : Nat) (hu : u ≤ maxInt64) (r : CborReader)
    (rest : List Nat) (hdata : r.data = minimalHead 0 u ++ rest) (hoff : r.offset = 0)
    (hsc : r.stateComputed = false) (hstack : r.nestingStack = []) :
    r.ReadInt64 = .ok (u : Int)
      ({ r with cachedState := headState 0, stateComputed := false
                offset := (minimalHead 0 u).length } : CborReader) := by
  have hu64 : u < 2 ^ 64 := by unfold maxInt64 at hu; omega
  have hpeek := peekState_minimalHead 0 u (by omega) r rest hdata hoff hsc (Or.inl hstack)
  unfold CborReader.ReadInt64
  rw [hpeek]
  have harg := readArgumentValue_minimalHead 0 u (by omega) hu64
    (({ r with cachedState := headState 0, stateComputed := true } : CborReader).invalidateState)
    rest (by simpa [CborReader.invalidateState] using hdata)
    (by simpa [CborReader.invalidateState] using hoff)
  simp only [headState, CborReader.invalidateState] at harg ⊢
  simp only [MajorTypeUnsignedInteger]
  rw [harg]
  simp [CborReader.advanceContainer, hstack]
  omega

theorem readInt64_minimalHead_neg (v : Nat) (hv : v ≤ maxInt64) (r : CborReader)
    (rest : List Nat) (hdata : r.data = minimalHead 1 v ++ rest) (hoff : r.offset = 0)
    (hsc : r.stateComputed = false) (hstack : r.nestingStack = []) :
    r.ReadInt64 = .ok (-1 - (v : Int))
      ({ r with cachedState := headState 1, stateComputed := false
                offset := (minimalHead 1 v).length } : CborReader) := by
  have hv64 : v < 2 ^ 64 := by unfold maxInt64 at hv; omega
  have hpeek := peekState_minimalHead 1 v (by omega) r rest hdata hoff hsc (Or.inl hstack)
  unfold CborReader.ReadInt64
  rw [hpeek]
  have harg := readArgumentValue_minimalHead 1 v (by omega) hv64
    (({ r with cachedState := headState 1, stateComputed := true } : CborReader).invalidateState)
    rest (by simpa [CborReader.invalidateState] using hdata)
    (by simpa [CborReader.invalidateState] using hoff)
  simp only [headState, CborReader.invalidateState] at harg ⊢
  simp only [MajorTypeNegativeInteger]
  rw [harg]
  simp [CborReader.advanceContainer, hstack]
  omega

/-- C1.  Integer round-trip: for every `uint64` value `u`, `ReadUint64` on a
fresh reader over the bytes of `WriteUint64(u)` on a fresh writer yields
exactly `u`; and for every `int64` value `i` (`i64::MIN` and `i64::MAX`
included), `ReadInt64` on the bytes of `WriteInt64(i)` yields exactly `i`. -/
theorem c1_integer_roundtrip :
    (∀ u : Nat, u < 2 ^ 64 →
      ((NewCborReader (NewCborWriter.WriteUint64 u).2.buffer).ReadUint64).okVal? = some u) ∧
    (∀ i : Int, -(2 ^ 63) ≤ i → i < 2 ^ 63 →
      ((NewCborReader (NewCborWriter.WriteInt64 i).2.buffer).ReadInt64).okVal? = some i) := by
  constructor
  · intro u hu
    have hbuf : (NewCborWriter.WriteUint64 u).2.buffer = minimalHead MajorTypeUnsignedInteger u := by
      show ((NewCborWriter.writeMinimalInitialByte MajorTypeUnsignedInteger u).advanceContainer).buffer = _
      rw [advanceContainer_buffer, writeMinimalInitialByte_buffer]
      simp [NewCborWriter]
    rw [hbuf]
    rw [readUint64_minimalHead u hu _ [] (by simp [NewCborReader, MajorTypeUnsignedInteger]) rfl rfl rfl]
    simp [ROut.okVal?]
  · intro i hlo hhi
    by_cases hpos : i ≥ 0
    · have hbuf : (NewCborWriter.WriteInt64 i).2.buffer =
          minimalHead MajorTypeUnsignedInteger (uint64OfInt i) := by
        unfold CborWriter.WriteInt64
        rw [if_pos hpos]
        show ((NewCborWriter.writeMinimalInitialByte MajorTypeUnsignedInteger
          (uint64OfInt i)).advanceContainer).buffer = _
        rw [advanceContainer_buffer, writeMinimalInitialByte_buffer]
        simp [NewCborWriter]
      have hval : (uint64OfInt i : Int) = i := by
        unfold uint64OfInt
        omega
      have hle : uint64OfInt i ≤ maxInt64 := by
        unfold uint64OfInt maxInt64
        omega
      rw [hbuf]
      rw [readInt64_minimalHead_pos (uint64OfInt i) hle _ []
        (by simp [NewCborReader, MajorTypeUnsignedInteger]) rfl rfl rfl]
      simp [ROut.okVal?, hval]
    · have hbuf : (NewCborWriter.WriteInt64 i).2.buffer =
          minimalHead MajorTypeNegativeInteger (uint64OfInt (-1 - i)) := by
        unfold CborWriter.WriteInt64
        rw [if_neg hpos]
        show ((NewCborWriter.writeMinimalInitialByte MajorTypeNegativeInteger
          (uint64OfInt (-1 - i))).advanceContainer).buffer = _
        rw [advanceContainer_buffer, writeMinimalInitialByte_buffer]
        simp [NewCborWriter]
      have hval : (uint64OfInt (-1 - i) : Int) = -1 - i := by
        unfold uint64OfInt
        omega
      have hle : uint64OfInt (-1 - i) ≤ maxInt64 := by
        unfold uint64OfInt maxInt64
        omega
      rw [hbuf]
      rw [readInt64_minimalHead_neg (uint64OfInt (-1 - i)) hle _ []
        (by simp [NewCborReader, MajorTypeNegativeInteger]) rfl rfl rfl]
      simp [ROut.okVal?, hval]

theorem c1_integer_roundtrip_witness :
    ((2 ^ 64 - 1 : Nat) < 2 ^ 64 ∧
      ((NewCborReader (NewCborWriter.WriteUint64 (2 ^ 64 - 1)).2.buffer).ReadUint64).okVal? =
        some (2 ^ 64 - 1)) ∧
    (-(2 ^ 63) ≤ (-(2 ^ 63) : Int) ∧ (-(2 ^ 63) : Int) < 2 ^ 63 ∧
      ((NewCborReader (NewCborWriter.WriteInt64 (-(2 ^ 63))).2.buffer).ReadInt64).okVal? =
        some (-(2 ^ 63))) :=
  ⟨⟨by norm_num, c1_integer_roundtrip.1 (2 ^ 64 - 1) (by norm_num)⟩,
   ⟨le_refl _, by norm_num, c1_integer_roundtrip.2 (-(2 ^ 63)) (le_refl _) (by norm_num)⟩⟩

/-- C3.  Non-minimal rejection: in strict, canonical and CTAP2-canonical
modes (`mode ≥ strict`) decoding an argument fails with `NonCanonical` for
each of the four non-minimal shapes, while the same inputs decode in lax
mode; concretely, a strict reader fed `0x18 0x17` fails `ReadUint64` with
`NonCanonical` and a lax reader reads 23. -/
theorem c3_nonminimal_rejection :
    (∀ (mode mt b : Nat) (rest : List Nat) (r : CborReader),
      mode ≥ ConformanceStrict → mt < 8 → b < 24 →
      r.data = encodeInitialByte mt AdditionalInfo8Bit :: b :: rest → r.offset = 0 →
      r.conformanceMode = mode →
      (r.readArgumentValue mt).errKind? = some .nonCanonical) ∧
    (∀ (mode mt v : Nat) (rest : List Nat) (r : CborReader),
      mode ≥ ConformanceStrict → mt < 8 → v ≤ 0xFF →
      r.data = encodeInitialByte mt AdditionalInfo16Bit :: be16 v ++ rest → r.offset = 0 →
      r.conformanceMode = mode →
      (r.readArgumentValue mt).errKind? = some .nonCanonical) ∧
    (∀ (mode mt v : Nat) (rest : List Nat) (r : CborReader),
      mode ≥ ConformanceStrict → mt < 8 → v ≤ 0xFFFF →
      r.data = encodeInitialByte mt AdditionalInfo32Bit :: be32 v ++ rest → r.offset = 0 →
      r.conformanceMode = mode →
      (r.readArgumentValue mt).errKind? = some .nonCanonical) ∧
    (∀ (mode mt v : Nat) (rest : List Nat) (r : CborReader),
      mode ≥ ConformanceStrict → mt < 8 → v ≤ 0xFFFFFFFF →
      r.data = encodeInitialByte mt AdditionalInfo64Bit :: be64 v ++ rest → r.offset = 0 →
      r.conformanceMode = mode →
      (r.readArgumentValue mt).errKind? = some .nonCanonical) ∧
    (({ NewCborReader [0x18, 0x17] with
        conformanceMode := ConformanceStrict } : CborReader).ReadUint64).errKind? =
      some .nonCanonical ∧
    ((NewCborReader [0x18, 0x17]).ReadUint64).okVal? = some 23 := by
  refine ⟨?_, ?_, ?_, ?_, by decide, by decide⟩
  · intro mode mt b rest r hmode hmt hb hdata hoff hcm
    have hb1 : encodeInitialByte mt AdditionalInfo8Bit / 32 = mt := by
      unfold encodeInitialByte AdditionalInfo8Bit; omega
    have hb2 : encodeInitialByte mt AdditionalInfo8Bit % 32 = 24 := by
      unfold encodeInitialByte AdditionalInfo8Bit; omega
    simp [CborReader.readArgumentValue, hdata, hoff, hcm, hb1, hb2]
    rw [if_pos ⟨by unfold ConformanceStrict at hmode ⊢; omega, hb⟩]
    simp [ROut.errKind?]
  · intro mode mt v rest r hmode hmt hv hdata hoff hcm
    have hb1 : encodeInitialByte mt AdditionalInfo16Bit / 32 = mt := by
      unfold encodeInitialByte AdditionalInfo16Bit; omega
    have hb2 : encodeInitialByte mt AdditionalInfo16Bit % 32 = 25 := by
      unfold encodeInitialByte AdditionalInfo16Bit; omega
    simp [CborReader.readArgumentValue, hdata, hoff, hcm, hb1, hb2, be16]
    rw [if_neg (by omega), if_pos ⟨by unfold ConformanceStrict at hmode ⊢; omega, by omega⟩]
    simp [ROut.errKind?]
  · intro mode mt v rest r hmode hmt hv hdata hoff hcm
    have hb1 : encodeInitialByte mt AdditionalInfo32Bit / 32 = mt := by
      unfold encodeInitialByte AdditionalInfo32Bit; omega
    have hb2 : encodeInitialByte mt AdditionalInfo32Bit % 32 = 26 := by
      unfold encodeInitialByte AdditionalInfo32Bit; omega
    simp [CborReader.readArgumentValue, hdata, hoff, hcm, hb1, hb2, be32]
    rw [if_neg (by omega), if_pos ⟨by unfold ConformanceStrict at hmode ⊢; omega, by omega⟩]
    simp [ROut.errKind?]
  · intro mode mt v rest r hmode hmt hv hdata hoff hcm
    have hb1 : encodeInitialByte mt AdditionalInfo64Bit / 32 = mt := by
      unfold encodeInitialByte AdditionalInfo64Bit; omega
    have hb2 : encodeInitialByte mt AdditionalInfo64Bit % 32 = 27 := by
      unfold encodeInitialByte AdditionalInfo64Bit; omega
    simp [CborReader.readArgumentValue, hdata, hoff, hcm, hb1, hb2, be64]
    rw [if_neg (by omega), if_pos ⟨by unfold ConformanceStrict at hmode ⊢; omega, by omega⟩]
    simp [ROut.errKind?]

theorem c3_nonminimal_rejection_witness :
    ConformanceStrict ≥ ConformanceStrict ∧ (0 : Nat) < 8 ∧ (23 : Nat) < 24 ∧
    ({ NewCborReader [0x18, 0x17] with conformanceMode := ConformanceStrict } :
        CborReader).data = encodeInitialByte 0 AdditionalInfo8Bit :: 23 :: [] ∧
    ((({ NewCborReader [0x18, 0x17] with conformanceMode := ConformanceStrict } :
        CborReader).readArgumentValue 0)).errKind? = some .nonCanonical :=
  ⟨le_refl _, by norm_num, by norm_num, by decide,
    c3_nonminimal_rejection.1 ConformanceStrict 0 23 []
      ({ NewCborReader [0x18, 0x17] with conformanceMode := ConformanceStrict } : CborReader)
      (le_refl _) (by norm_num) (by norm_num) (by decide) rfl rfl⟩

theorem float32ToFloat16Bits_eval (s e f : Nat) (hs : s < 2) (he : e < 256) (hf : f < 2 ^ 23) :
    float32ToFloat16Bits (s * 2 ^ 31 + e * 2 ^ 23 + f) =
      (if e = 0 then s * 2 ^ 15
       else if e = 255 then
         (if f = 0 then s * 2 ^ 15 + 0x7C00 else s * 2 ^ 15 + 0x7C00 + f / 2 ^ 13)
       else if e > 142 then s * 2 ^ 15 + 0x7C00
       else if e < 113 then s * 2 ^ 15
       else s * 2 ^ 15 + (e - 112) * 2 ^ 10 + f / 2 ^ 13) := by
  have h1 : (s * 2 ^ 31 + e * 2 ^ 23 + f) / 2 ^ 31 % 2 = s := by omega
  have h2 : (s * 2 ^ 31 + e * 2 ^ 23 + f) / 2 ^ 23 % 2 ^ 8 = e := by omega
  have h3 : (s * 2 ^ 31 + e * 2 ^ 23 + f) % 2 ^ 23 = f := by omega
  simp only [float32ToFloat16Bits, h1, h2, h3]

theorem float16BitsToFloat32Bits_eval (s e f : Nat) (hs : s < 2) (he : e < 32) (hf : f < 1024)
    (hne : e ≠ 0 ∨ f = 0) :
    float16BitsToFloat32Bits (s * 2 ^ 15 + e * 2 ^ 10 + f) =
      (if e = 0 then s * 2 ^ 31
       else if e < 31 then s * 2 ^ 31 + (e + 112) * 2 ^ 23 + f * 2 ^ 13
       else if f = 0 then s * 2 ^ 31 + 0x7F800000
       else s * 2 ^ 31 + 0x7F800000 + f * 2 ^ 13) := by
  have h1 : (s * 2 ^ 15 + e * 2 ^ 10 + f) / 2 ^ 15 % 2 = s := by omega
  have h2 : (s * 2 ^ 15 + e * 2 ^ 10 + f) / 2 ^ 10 % 2 ^ 5 = e := by omega
  have h3 : (s * 2 ^ 15 + e * 2 ^ 10 + f) % 2 ^ 10 = f := by omega
  simp only [float16BitsToFloat32Bits, h1, h2, h3]
  by_cases he0 : e = 0
  · subst he0
    have hf0 : f = 0 := hne.resolve_left (by simp)
    subst hf0
    norm_num
  · have hpe : ¬ ((e : Nat) : Int) = 0 := fun hc => he0 (by exact_mod_cast hc)
    rw [if_neg (fun hc => hpe hc.1), if_neg hpe, if_neg he0]
    by_cases he31 : e < 31
    · rw [if_pos (Or.inr (show ((e : Nat) : Int) < 31 by exact_mod_cast he31)), if_pos he31]
      have hto : (((e : Nat) : Int) - 15 + 127).toNat = e + 112 := by omega
      simp only [hto]
    · rw [if_neg (fun hc => hc.elim hpe
        (fun h => he31 (by exact_mod_cast show ((e : Nat) : Int) < 31 from h))), if_neg he31]

/-- C4 counterexample.  The binary16 subnormal with bit pattern 0x0001
(the smallest positive subnormal) converts to the float32 pattern
0x33800000 and back to 0x0000, not 0x0001: the round-trip is not
bit-identical on subnormals, which `float32ToFloat16Bits` flushes to the
signed zero. -/
theorem c4_binary16_subnormal_counterexample :
    float16BitsToFloat32Bits 0x0001 = 0x33800000 ∧
    float32ToFloat16Bits (float16BitsToFloat32Bits 0x0001) = 0x0000 ∧
    float32ToFloat16Bits (float16BitsToFloat32Bits 0x0001) ≠ 0x0001 :=
  ⟨by decide, by decide, by decide⟩

/-- C4 amended.  The binary16 round-trip through `float16BitsToFloat32`
and `float32ToFloat16Bits` is bit-identical for every binary16 pattern
that is not a subnormal: every pattern with a non-zero exponent field
(all normal values, ±infinity and every NaN) and both signed zeros.
Subnormal inputs are the exception the counterexample exhibits. -/
theorem c4_binary16_roundtrip_amended :
    ∀ b : Nat, b < 2 ^ 16 → (b / 2 ^ 10 % 2 ^ 5 ≠ 0 ∨ b % 2 ^ 10 = 0) →
      float32ToFloat16Bits (float16BitsToFloat32Bits b) = b := by
  intro b hb hok
  obtain ⟨s, e, f, hs, he, hf, rfl⟩ :
      ∃ s e f, s < 2 ∧ e < 32 ∧ f < 1024 ∧ b = s * 2 ^ 15 + e * 2 ^ 10 + f :=
    ⟨b / 2 ^ 15, b / 2 ^ 10 % 32, b % 1024, by omega, by omega, by omega, by omega⟩
  have hok' : e ≠ 0 ∨ f = 0 := by
    rcases hok with hok | hok
    · exact Or.inl (fun hc => hok (by omega))
    · exact Or.inr (by omega)
  rw [float16BitsToFloat32Bits_eval s e f hs he hf hok']
  by_cases he0 : e = 0
  · subst he0
    have hf0 : f = 0 := hok'.resolve_left (by simp)
    subst hf0
    rw [if_pos rfl]
    have harg : s * 2 ^ 31 = s * 2 ^ 31 + 0 * 2 ^ 23 + 0 := by ring
    rw [harg, float32ToFloat16Bits_eval s 0 0 hs (by norm_num) (by norm_num)]
    norm_num
  · rw [if_neg he0]
    by_cases he31 : e < 31
    · rw [if_pos he31, float32ToFloat16Bits_eval s (e + 112) (f * 2 ^ 13) hs (by omega)
        (by omega)]
      rw [if_neg (by omega), if_neg (by omega), if_neg (by omega), if_neg (by omega)]
      have h13 : f * 2 ^ 13 / 2 ^ 13 = f := by omega
      rw [h13]
      omega
    · rw [if_neg he31]
      by_cases hf0 : f = 0
      · rw [if_pos hf0]
        have harg : s * 2 ^ 31 + 0x7F800000 = s * 2 ^ 31 + 255 * 2 ^ 23 + 0 := by norm_num
        rw [harg, float32ToFloat16Bits_eval s 255 0 hs (by norm_num) (by norm_num)]
        rw [if_neg (by omega), if_pos rfl, if_pos rfl]
        omega
      · rw [if_neg hf0]
        have harg : s * 2 ^ 31 + 0x7F800000 + f * 2 ^ 13 =
            s * 2 ^ 31 + 255 * 2 ^ 23 + f * 2 ^ 13 := by norm_num
        rw [harg, float32ToFloat16Bits_eval s 255 (f * 2 ^ 13) hs (by norm_num) (by omega)]
        rw [if_neg (by omega), if_pos rfl, if_neg (by omega)]
        have h13 : f * 2 ^ 13 / 2 ^ 13 = f := by omega
        rw [h13]
        omega

theorem c4_binary16_roundtrip_amended_witness :
    (0x7E01 : Nat) < 2 ^ 16 ∧
    ((0x7E01 : Nat) / 2 ^ 10 % 2 ^ 5 ≠ 0 ∨ (0x7E01 : Nat) % 2 ^ 10 = 0) ∧
    float32ToFloat16Bits (float16BitsToFloat32Bits 0x7E01) = 0x7E01 :=
  ⟨by norm_num, by norm_num,
    c4_binary16_roundtrip_amended 0x7E01 (by norm_num) (by norm_num)⟩

/-- C5.  `ReadBigInt` on a negative integer whose argument exceeds
`i64::MAX`: `ReadInt64` fails with `Overflow` only after its
`readArgumentValue` call has consumed the whole head, and the fallback
calls `readArgumentValue` again at the already-advanced offset.  On the
lone data item `0x3b ff ff ff ff ff ff ff ff` (the CBOR encoding of
−2⁶⁴) the claim expects the value −2⁶⁴ but the code returns
`UnexpectedEndOfData`; with a following item `0x20` the code returns the
wrong value −1, double-consuming both items.  The unsigned, in-range
negative, tag-2 and tag-3 cases behave as the claim states and consume
exactly one data item. -/
theorem c5_readBigInt_negative_overflow_bug :
    ((NewCborReader [0x3b, 0xff, 0xff, 0xff, 0xff, 0xff, 0xff, 0xff, 0xff]).ReadBigInt).errKind?
        = some .unexpectedEndOfData ∧
    ((NewCborReader [0x3b, 0xff, 0xff, 0xff, 0xff, 0xff, 0xff, 0xff, 0xff, 0x20]).ReadBigInt).okVal?
        = some (-1) ∧
    ((-1 : Int) = -(2 ^ 64)) = False ∧
    ((NewCborReader [0x1b, 0xff, 0xff, 0xff, 0xff, 0xff, 0xff, 0xff, 0xff]).ReadBigInt).okVal?
        = some (2 ^ 64 - 1) ∧
    ((NewCborReader [0x1b, 0xff, 0xff, 0xff, 0xff, 0xff, 0xff, 0xff, 0xff]).ReadBigInt).okOffset?
        = some 9 ∧
    ((NewCborReader [0x20]).ReadBigInt).okVal? = some (-1) ∧
    ((NewCborReader [0x3a, 0xff, 0xff, 0xff, 0xff]).ReadBigInt).okVal? = some (-4294967296) ∧
    ((NewCborReader [0xc2, 0x49, 1, 0, 0, 0, 0, 0, 0, 0, 0]).ReadBigInt).okVal?
        = some (2 ^ 64) ∧
    ((NewCborReader [0xc2, 0x49, 1, 0, 0, 0, 0, 0, 0, 0, 0]).ReadBigInt).okOffset?
        = some 11 ∧
    ((NewCborReader [0xc3, 0x49, 1, 0, 0, 0, 0, 0, 0, 0, 0]).ReadBigInt).okVal?
        = some (-1 - 2 ^ 64) := by
  refine ⟨by decide, by decide, by decide, by decide, by decide, by decide, by decide,
    by decide, by decide, by decide⟩

/-- C7.  A declared byte-string length at or above 2⁶³ defeats the Go
bound check `r.offset + int(length) > len(r.data)` by signed wrap-around,
and the following `make`/slice panics instead of returning
`UnexpectedEndOfData`: the bytes `0x5b ff ff ff ff ff ff ff ff` (a
byte-string head declaring length 2⁶⁴−1, a strict prefix of a well-formed
item) make `ReadByteString` panic.  Lengths below 2⁶³ that exceed the
input, and truncated argument bytes, do reach the normal
`UnexpectedEndOfData` path. -/
theorem c7_truncation_length_overflow_bug :
    ((NewCborReader [0x5b, 0xff, 0xff, 0xff, 0xff, 0xff, 0xff, 0xff, 0xff]).ReadByteString).isPanic
        = true ∧
    ((NewCborReader [0x5b, 0x80, 0, 0, 0, 0, 0, 0, 0]).ReadByteString).isPanic = true ∧
    ((NewCborReader [0x45, 1, 2]).ReadByteString).errKind? = some .unexpectedEndOfData ∧
    ((NewCborReader [0x5b, 0, 0, 0, 0, 0, 0, 0, 0xff]).ReadByteString).errKind?
        = some .unexpectedEndOfData ∧
    ((NewCborReader [0x19, 0x01]).readArgumentValue 0).errKind? = some .unexpectedEndOfData ∧
    ((NewCborReader [0x1b, 1, 2, 3]).readArgumentValue 0).errKind? = some .unexpectedEndOfData := by
  refine ⟨by decide, by decide, by decide, by decide, by decide, by decide⟩

/-- C6.  Break-byte classification: when the next input byte is 0xFF and
the innermost definite frame has not reached its declared count,
`PeekState` yields `UnexpectedBreak` at depth 0 and in a non-indefinite
frame, `IncompleteContainer` in an indefinite map whose pair has a key
read but no value, and otherwise the end state matching the indefinite
frame's major type. -/
theorem c6_break_byte_classification :
    ∀ r : CborReader, r.stateComputed = false →
      r.offset < r.data.length → r.data.getD r.offset 0 = breakByte →
      ((r.nestingStack = [] → r.PeekState = .err .unexpectedBreak r) ∧
       (∀ info tl, r.nestingStack = info :: tl →
         ((info.isIndefinite = false → info.itemsRead < info.definiteLength →
            r.PeekState = .err .unexpectedBreak r) ∧
          (info.isIndefinite = true → info.majorType = MajorTypeArray →
            r.PeekState = .ok .endArray
              { r with cachedState := .endArray, stateComputed := true }) ∧
          (info.isIndefinite = true → info.majorType = MajorTypeMap → info.keyRead = true →
            r.PeekState = .err .incompleteContainer r) ∧
          (info.isIndefinite = true → info.majorType = MajorTypeMap → info.keyRead = false →
            r.PeekState = .ok .endMap
              { r with cachedState := .endMap, stateComputed := true }) ∧
          (info.isIndefinite = true → info.majorType = MajorTypeByteString →
            r.PeekState = .ok .endIndefiniteLengthByteString
              { r with cachedState := .endIndefiniteLengthByteString,
                       stateComputed := true }) ∧
          (info.isIndefinite = true → info.majorType = MajorTypeTextString →
            r.PeekState = .ok .endIndefiniteLengthTextString
              { r with cachedState := .endIndefiniteLengthTextString,
                       stateComputed := true })))) := by
  intro r hsc hoff hbyte
  have hl : ¬ r.offset ≥ r.data.length := by omega
  have hbyte' : r.data[r.offset]?.getD 0 = breakByte := by
    simpa [List.getD] using hbyte
  constructor
  · intro hstack
    have hcs : r.computeState = .error .unexpectedBreak := by
      simp [CborReader.computeState, CborReader.computeStateMain, hstack, hl, hbyte, hbyte']
    simp [CborReader.PeekState, hsc, hcs]
  · intro info tl hstack
    refine ⟨?_, ?_, ?_, ?_, ?_, ?_⟩
    · intro hind hlt
      have hge : ¬ info.definiteLength ≤ info.itemsRead := not_le.mpr hlt
      have hcs : r.computeState = .error .unexpectedBreak := by
        simp [CborReader.computeState, CborReader.computeStateMain, hstack, hl, hbyte, hbyte',
          hind, hge]
      simp [CborReader.PeekState, hsc, hcs]
    · intro hind hmt
      have hcs : r.computeState = .ok .endArray := by
        simp [CborReader.computeState, CborReader.computeStateMain, hstack, hl, hbyte, hbyte',
          hind, hmt, MajorTypeArray]
      simp [CborReader.PeekState, hsc, hcs]
    · intro hind hmt hkey
      have hcs : r.computeState = .error .incompleteContainer := by
        simp [CborReader.computeState, CborReader.computeStateMain, hstack, hl, hbyte, hbyte',
          hind, hmt, hkey, MajorTypeArray, MajorTypeMap]
      simp [CborReader.PeekState, hsc, hcs]
    · intro hind hmt hkey
      have hcs : r.computeState = .ok .endMap := by
        simp [CborReader.computeState, CborReader.computeStateMain, hstack, hl, hbyte, hbyte',
          hind, hmt, hkey, MajorTypeArray, MajorTypeMap]
      simp [CborReader.PeekState, hsc, hcs]
    · intro hind hmt
      have hcs : r.computeState = .ok .endIndefiniteLengthByteString := by
        simp [CborReader.computeState, CborReader.computeStateMain, hstack, hl, hbyte, hbyte',
          hind, hmt, MajorTypeArray, MajorTypeMap, MajorTypeByteString]
      simp [CborReader.PeekState, hsc, hcs]
    · intro hind hmt
      have hcs : r.computeState = .ok .endIndefiniteLengthTextString := by
        simp [CborReader.computeState, CborReader.computeStateMain, hstack, hl, hbyte, hbyte',
          hind, hmt, MajorTypeArray, MajorTypeMap, MajorTypeByteString, MajorTypeTextString]
      simp [CborReader.PeekState, hsc, hcs]

theorem c6_break_byte_classification_witness :
    ((NewCborReader [0xFF]).stateComputed = false ∧
     (NewCborReader [0xFF]).offset < (NewCborReader [0xFF]).data.length ∧
     (NewCborReader [0xFF]).data.getD (NewCborReader [0xFF]).offset 0 = breakByte ∧
     (NewCborReader [0xFF]).nestingStack = []) ∧
    (NewCborReader [0xFF]).PeekState = .err .unexpectedBreak (NewCborReader [0xFF]) :=
  ⟨⟨rfl, by decide, by decide, rfl⟩,
    (c6_break_byte_classification (NewCborReader [0xFF]) rfl (by decide) (by decide)).1 rfl⟩

/-- C8.  Tags do not advance the enclosing container: `WriteTag` appends
exactly the major-type-6 head with the tag's argument and never errs,
leaving the nesting stack — every frame's items-written count and
key-written flag included — untouched; `ReadTag` over a major-type-6
minimal head, with any enclosing (non-exhausted) frame, returns the tag's
argument, consumes exactly the head bytes, and leaves the nesting stack
untouched. -/
theorem c8_tag_does_not_advance_container :
    (∀ (w : CborWriter) (t : Nat),
      (w.WriteTag t).1 = none ∧
      (w.WriteTag t).2.nestingStack = w.nestingStack ∧
      (w.WriteTag t).2.buffer = w.buffer ++ minimalHead MajorTypeTag t ∧
      (w.WriteTag t).2.rootValueWritten = w.rootValueWritten) ∧
    (∀ (v : Nat) (r : CborReader) (info : ReaderNestingInfo)
        (tl : List ReaderNestingInfo) (rest : List Nat),
      v < 2 ^ 64 →
      r.data = minimalHead MajorTypeTag v ++ rest → r.offset = 0 →
      r.stateComputed = false → r.nestingStack = info :: tl →
      info.isIndefinite = true ∨ info.itemsRead < info.definiteLength →
      r.ReadTag = .ok v
        ({ r with cachedState := headState MajorTypeTag, stateComputed := false
                  offset := (minimalHead MajorTypeTag v).length } : CborReader)) := by
  constructor
  · intro w t
    refine ⟨rfl, rfl, ?_, rfl⟩
    exact writeMinimalInitialByte_buffer w MajorTypeTag t
  · intro v r info tl rest hv hdata hoff hsc hstack hok
    have hpeek := peekState_minimalHead MajorTypeTag v (by norm_num [MajorTypeTag]) r rest
      hdata hoff hsc (Or.inr ⟨info, tl, hstack, hok⟩)
    unfold CborReader.ReadTag
    rw [hpeek]
    have harg := readArgumentValue_minimalHead MajorTypeTag v (by norm_num [MajorTypeTag]) hv
      (({ r with cachedState := headState MajorTypeTag,
                 stateComputed := true } : CborReader).invalidateState)
      rest (by simpa [CborReader.invalidateState] using hdata)
      (by simpa [CborReader.invalidateState] using hoff)
    simp only [headState, MajorTypeTag, CborReader.invalidateState] at harg ⊢
    rw [harg]
    simp

theorem c8_tag_does_not_advance_container_witness :
    (NewCborWriter.WriteTag 5).1 = none ∧
    (NewCborWriter.WriteTag 5).2.nestingStack = NewCborWriter.nestingStack ∧
    ({ NewCborReader [0xC5] with nestingStack :=
        [{ majorType := MajorTypeArray, definiteLength := 1, itemsRead := 0,
           isMap := false, keyRead := false, isIndefinite := false }] } : CborReader).ReadTag =
      .ok 5 ({ ({ NewCborReader [0xC5] with nestingStack :=
          [{ majorType := MajorTypeArray, definiteLength := 1, itemsRead := 0,
             isMap := false, keyRead := false, isIndefinite := false }] } : CborReader) with
          cachedState := headState MajorTypeTag, stateComputed := false
          offset := (minimalHead MajorTypeTag 5).length } : CborReader) :=
  ⟨(c8_tag_does_not_advance_container.1 NewCborWriter 5).1,
   (c8_tag_does_not_advance_container.1 NewCborWriter 5).2.1,
   c8_tag_does_not_advance_container.2 5
     ({ NewCborReader [0xC5] with nestingStack :=
        [{ majorType := MajorTypeArray, definiteLength := 1, itemsRead := 0,
           isMap := false, keyRead := false, isIndefinite := false }] } : CborReader)
     { majorType := MajorTypeArray, definiteLength := 1, itemsRead := 0,
       isMap := false, keyRead := false, isIndefinite := false } [] []
     (by norm_num) (by decide) rfl rfl rfl (Or.inr (by decide))⟩

/-- C10.  Writer end-of-container atomicity: whenever `WriteEndArray` or
`WriteEndMap` returns an error, the writer — output buffer, nesting stack
and every frame's fields — is exactly as it was before the call; and the
error kinds are as described: `InvalidState` with no container or the
wrong major type on top, `IncompleteContainer` for a short definite
container or a dangling map key, `ExtraItems` for an over-full definite
container. -/
theorem c10_write_end_atomicity :
    ∀ w : CborWriter,
      (∀ e w', w.WriteEndArray = (some e, w') → w' = w) ∧
      (∀ e w', w.WriteEndMap = (some e, w') → w' = w) ∧
      (w.nestingStack = [] →
        w.WriteEndArray = (some .invalidState, w) ∧
        w.WriteEndMap = (some .invalidState, w)) ∧
      (∀ info tl, w.nestingStack = info :: tl →
        ((info.majorType ≠ MajorTypeArray → w.WriteEndArray = (some .invalidState, w)) ∧
         (info.majorType = MajorTypeArray → info.isIndefinite = false →
           info.itemsWritten < info.definiteLength →
           w.WriteEndArray = (some .incompleteContainer, w)) ∧
         (info.majorType = MajorTypeArray → info.isIndefinite = false →
           info.definiteLength < info.itemsWritten →
           w.WriteEndArray = (some .extraItems, w)) ∧
         (info.majorType ≠ MajorTypeMap → w.WriteEndMap = (some .invalidState, w)) ∧
         (info.majorType = MajorTypeMap → info.keyWritten = true →
           w.WriteEndMap = (some .incompleteContainer, w)) ∧
         (info.majorType = MajorTypeMap → info.keyWritten = false →
           info.isIndefinite = false → info.itemsWritten < info.definiteLength →
           w.WriteEndMap = (some .incompleteContainer, w)) ∧
         (info.majorType = MajorTypeMap → info.keyWritten = false →
           info.isIndefinite = false → info.definiteLength < info.itemsWritten →
           w.WriteEndMap = (some .extraItems, w)))) := by
  intro w
  refine ⟨?_, ?_, ?_, ?_⟩
  · intro e w' h
    unfold CborWriter.WriteEndArray at h
    split at h <;>
      [skip; split_ifs at h] <;>
      simp only [Prod.mk.injEq] at h <;>
      first
      | exact h.2.symm
      | exact absurd h.1 (by simp)
  · intro e w' h
    unfold CborWriter.WriteEndMap at h
    split at h <;>
      [skip; split_ifs at h] <;>
      simp only [Prod.mk.injEq] at h <;>
      first
      | exact h.2.symm
      | exact absurd h.1 (by simp)
  · intro hstack
    refine ⟨?_, ?_⟩
    · unfold CborWriter.WriteEndArray
      rw [hstack]
    · unfold CborWriter.WriteEndMap
      rw [hstack]
  · intro info tl hstack
    refine ⟨?_, ?_, ?_, ?_, ?_, ?_, ?_⟩
    · intro hmt
      unfold CborWriter.WriteEndArray
      rw [hstack]
      dsimp only
      split_ifs <;> first | rfl | omega | simp_all
    · intro hmt hind hlt
      unfold CborWriter.WriteEndArray
      rw [hstack]
      dsimp only
      split_ifs <;> first | rfl | omega | simp_all
    · intro hmt hind hgt
      unfold CborWriter.WriteEndArray
      rw [hstack]
      dsimp only
      split_ifs <;> first | rfl | omega | simp_all
    · intro hmt
      unfold CborWriter.WriteEndMap
      rw [hstack]
      dsimp only
      split_ifs <;> first | rfl | omega | simp_all
    · intro hmt hkey
      unfold CborWriter.WriteEndMap
      rw [hstack]
      dsimp only
      split_ifs <;> first | rfl | omega | simp_all
    · intro hmt hkey hind hlt
      unfold CborWriter.WriteEndMap
      rw [hstack]
      dsimp only
      split_ifs <;> first | rfl | omega | simp_all
    · intro hmt hkey hind hgt
      unfold CborWriter.WriteEndMap
      rw [hstack]
      dsimp only
      split_ifs <;> first | rfl | omega | simp_all

theorem c10_write_end_atomicity_witness :
    NewCborWriter.nestingStack = [] ∧
    NewCborWriter.WriteEndArray = (some .invalidState, NewCborWriter) ∧
    NewCborWriter.WriteEndMap = (some .invalidState, NewCborWriter) :=
  ⟨rfl, ((c10_write_end_atomicity NewCborWriter).2.2.1 rfl).1,
    ((c10_write_end_atomicity NewCborWriter).2.2.1 rfl).2⟩

theorem writeStartArray_step (w : CborWriter)
    (h : w.nestingStack.length < w.maxNestingDepth) :
    (w.WriteStartArray 1).1 = none ∧
    (w.WriteStartArray 1).2.nestingStack.length = w.nestingStack.length + 1 ∧
    (w.WriteStartArray 1).2.maxNestingDepth = w.maxNestingDepth := by
  have hck : w.checkNestingDepth = none := by
    unfold CborWriter.checkNestingDepth
    rw [if_neg (by omega)]
  unfold CborWriter.WriteStartArray
  rw [hck]
  dsimp only
  have hfields := writeMinimalInitialByte_fields w MajorTypeArray (uint64OfInt 1)
  exact ⟨rfl, by simp [hfields.1], hfields.2.2.1⟩

theorem iterStartArray_ok : ∀ (k : Nat) (w : CborWriter),
    w.nestingStack.length + k ≤ w.maxNestingDepth →
    (iterStartArray k w).1 = none ∧
    (iterStartArray k w).2.nestingStack.length = w.nestingStack.length + k ∧
    (iterStartArray k w).2.maxNestingDepth = w.maxNestingDepth := by
  intro k
  induction k with
  | zero => exact fun w h => ⟨rfl, (Nat.add_zero _).symm, rfl⟩
  | succ n ih =>
    intro w h
    have hstep := writeStartArray_step w (by omega)
    rcases hsw : w.WriteStartArray 1 with ⟨oe, w1⟩
    rw [hsw] at hstep
    rcases oe with _ | e
    · have hgoal : iterStartArray (n + 1) w = iterStartArray n w1 := by
        rw [show iterStartArray (n + 1) w = (match w.WriteStartArray 1 with
          | (some e, w') => (some e, w')
          | (none, w') => iterStartArray n w') from rfl, hsw]
      rw [hgoal]
      have hw1 := ih w1 (by
        simp only at hstep
        omega)
      simp only at hstep
      refine ⟨hw1.1, ?_, ?_⟩
      · rw [hw1.2.1]
        omega
      · rw [hw1.2.2]
        exact hstep.2.2
    · exact absurd hstep.1 (by simp)

theorem iterStartArray_fail : ∀ (k : Nat) (w : CborWriter),
    w.nestingStack.length + k = w.maxNestingDepth →
    (iterStartArray (k + 1) w).1 = some .nestingDepthExceeded := by
  intro k
  induction k with
  | zero =>
    intro w h
    have hck : w.checkNestingDepth = some .nestingDepthExceeded := by
      unfold CborWriter.checkNestingDepth
      rw [if_pos (by omega)]
    unfold iterStartArray CborWriter.WriteStartArray
    rw [hck]
  | succ n ih =>
    intro w h
    have hstep := writeStartArray_step w (by omega)
    rcases hsw : w.WriteStartArray 1 with ⟨oe, w1⟩
    rw [hsw] at hstep
    rcases oe with _ | e
    · have hgoal : iterStartArray (n + 1 + 1) w = iterStartArray (n + 1) w1 := by
        rw [show iterStartArray (n + 1 + 1) w = (match w.WriteStartArray 1 with
          | (some e, w') => (some e, w')
          | (none, w') => iterStartArray (n + 1) w') from rfl, hsw]
      rw [hgoal]
      simp only at hstep
      exact ih w1 (by omega)
    · exact absurd hstep.1 (by simp)

/-- C9 amended.  Nesting cap: with `maxNestingDepth = N`, definite
`WriteStartArray`/`WriteStartMap` and (outside the canonical modes) the
indefinite `writeStart*` operations issued with `N` frames open fail with
`NestingDepthExceeded` and push no frame; starts at depth below `N` are
not rejected for depth; `ReadStartArray`/`ReadStartMap` refuse the same
way with the stack unchanged; and `N + 1` consecutive nested
`WriteStartArray` calls fail exactly at the `(N+1)`-th.  Exception forced
by the counterexample: in canonical and CTAP2-canonical modes the writer's
indefinite-length starts check the mode first and fail with
`IndefiniteLengthNotAllowed` even at full depth. -/
theorem c9_nesting_cap_amended :
    (∀ (w : CborWriter) (n : Int), w.nestingStack.length ≥ w.maxNestingDepth →
      w.WriteStartArray n = (some .nestingDepthExceeded, w) ∧
      w.WriteStartMap n = (some .nestingDepthExceeded, w)) ∧
    (∀ w : CborWriter, w.nestingStack.length ≥ w.maxNestingDepth →
      w.conformanceMode ≠ ConformanceCanonical →
      w.conformanceMode ≠ ConformanceCtap2Canonical →
      w.WriteStartIndefiniteLengthArray = (some .nestingDepthExceeded, w) ∧
      w.WriteStartIndefiniteLengthMap = (some .nestingDepthExceeded, w) ∧
      w.WriteStartIndefiniteLengthByteString = (some .nestingDepthExceeded, w) ∧
      w.WriteStartIndefiniteLengthTextString = (some .nestingDepthExceeded, w)) ∧
    (∀ w : CborWriter,
      w.conformanceMode = ConformanceCanonical ∨
        w.conformanceMode = ConformanceCtap2Canonical →
      w.WriteStartIndefiniteLengthArray = (some .indefiniteLengthNotAllowed, w)) ∧
    (∀ (w : CborWriter) (n : Int), w.nestingStack.length < w.maxNestingDepth →
      (w.WriteStartArray n).1 = none ∧
      (w.WriteStartArray n).2.nestingStack.length = w.nestingStack.length + 1) ∧
    (∀ r : CborReader, r.stateComputed = false → r.computeState = .ok .startArray →
      r.nestingStack.length ≥ r.maxNestingDepth →
      r.ReadStartArray = .err .nestingDepthExceeded
        { r with cachedState := .startArray, stateComputed := true }) ∧
    (∀ r : CborReader, r.stateComputed = false → r.computeState = .ok .startMap →
      r.nestingStack.length ≥ r.maxNestingDepth →
      r.ReadStartMap = .err .nestingDepthExceeded
        { r with cachedState := .startMap, stateComputed := true }) ∧
    (∀ N : Nat,
      (iterStartArray N { NewCborWriter with maxNestingDepth := N }).1 = none ∧
      (iterStartArray (N + 1) { NewCborWriter with maxNestingDepth := N }).1 =
        some .nestingDepthExceeded) := by
  have hsome : ∀ w : CborWriter, w.nestingStack.length ≥ w.maxNestingDepth →
      w.checkNestingDepth = some .nestingDepthExceeded := by
    intro w h
    unfold CborWriter.checkNestingDepth
    rw [if_pos h]
  refine ⟨?_, ?_, ?_, ?_, ?_, ?_, ?_⟩
  · intro w n h
    constructor
    · unfold CborWriter.WriteStartArray
      rw [hsome w h]
    · unfold CborWriter.WriteStartMap
      rw [hsome w h]
  · intro w h hc1 hc2
    refine ⟨?_, ?_, ?_, ?_⟩
    · unfold CborWriter.WriteStartIndefiniteLengthArray
      rw [if_neg (by tauto), hsome w h]
    · unfold CborWriter.WriteStartIndefiniteLengthMap
      rw [if_neg (by tauto), hsome w h]
    · unfold CborWriter.WriteStartIndefiniteLengthByteString
      rw [if_neg (by tauto), hsome w h]
    · unfold CborWriter.WriteStartIndefiniteLengthTextString
      rw [if_neg (by tauto), hsome w h]
  · intro w h
    unfold CborWriter.WriteStartIndefiniteLengthArray
    rw [if_pos h]
  · intro w n h
    have hck : w.checkNestingDepth = none := by
      unfold CborWriter.checkNestingDepth
      rw [if_neg (by omega)]
    unfold CborWriter.WriteStartArray
    rw [hck]
    dsimp only
    have hfields := writeMinimalInitialByte_fields w MajorTypeArray (uint64OfInt n)
    exact ⟨rfl, by simp [hfields.1]⟩
  · intro r hsc hcs h
    simp [CborReader.ReadStartArray, CborReader.PeekState, hsc, hcs, h]
  · intro r hsc hcs h
    simp [CborReader.ReadStartMap, CborReader.PeekState, hsc, hcs, h]
  · intro N
    constructor
    · exact (iterStartArray_ok N { NewCborWriter with maxNestingDepth := N }
        (by simp [NewCborWriter])).1
    · exact iterStartArray_fail N { NewCborWriter with maxNestingDepth := N }
        (by simp [NewCborWriter])

/-- C9 counterexample.  A canonical-mode writer with `maxNestingDepth = 1`
and one frame open: `WriteStartIndefiniteLengthArray` — a `writeStart*`
operation issued with `N = 1` frames already open — fails with
`IndefiniteLengthNotAllowed`, not `NestingDepthExceeded` (the mode check
precedes the depth check), refuting the claim as stated. -/
theorem c9_nesting_cap_counterexample :
    ((CborWriter.WriteStartArray { NewCborWriter with
        conformanceMode := ConformanceCanonical, maxNestingDepth := 1 } 0).2.nestingStack.length =
      1 ∧
     (CborWriter.WriteStartArray { NewCborWriter with
        conformanceMode := ConformanceCanonical, maxNestingDepth := 1 } 0).2.maxNestingDepth =
      1) ∧
    ((CborWriter.WriteStartArray { NewCborWriter with
        conformanceMode := ConformanceCanonical,
        maxNestingDepth := 1 } 0).2.WriteStartIndefiniteLengthArray).1 =
      some .indefiniteLengthNotAllowed ∧
    ¬ ((CborWriter.WriteStartArray { NewCborWriter with
        conformanceMode := ConformanceCanonical,
        maxNestingDepth := 1 } 0).2.WriteStartIndefiniteLengthArray).1 =
      some .nestingDepthExceeded := by
  refine ⟨⟨by decide, by decide⟩, by decide, by decide⟩

theorem c9_nesting_cap_amended_witness :
    ({ NewCborWriter with maxNestingDepth := 0 } : CborWriter).nestingStack.length ≥
      ({ NewCborWriter with maxNestingDepth := 0 } : CborWriter).maxNestingDepth ∧
    CborWriter.WriteStartArray { NewCborWriter with maxNestingDepth := 0 } 1 =
      (some .nestingDepthExceeded, { NewCborWriter with maxNestingDepth := 0 }) :=
  ⟨by decide,
    (c9_nesting_cap_amended.1 { NewCborWriter with maxNestingDepth := 0 } 1 (by decide)).1⟩
